import Mathlib

/-! Shallow embedding of the KL-Software-Profi-Fachuebersetzung translation
service (src/app.py) and verification of its specification claims.

The embedding models the Python program over Lean data: Python `str`
becomes `String` (operated on through `List Char`), Python `None`/optional
values become `Option`, SQLite rows become entries of explicit list-backed
stores, and the two fallible external effects of the job pipeline
(file-content extraction and the remote translator call) become explicit
`Except String` values threaded through the pipeline.  A Python exception
escaping a function is modeled as an `Option String` carrying the message.

Python string primitives used by the source (`str.split`, `str.strip`,
`str.splitlines`, `str.replace`, `str.rsplit`, `dict` insertion order,
bytes `.decode("utf-8", errors="ignore")`, `str.encode("utf-8")`) are
modeled character-exactly for ASCII input; the Unicode-only refinements of
Python semantics (Unicode whitespace classes beyond ASCII, `\r`-style line
breaks in `splitlines`, locale-free full-Unicode `lower`) are out of the
reach of the inputs the claims quantify over and are noted at each
definition.
-/

deriving instance DecidableEq for Except

namespace KLApp

/-- Python whitespace characters recognized by `str.split()` / `str.strip()`
(ASCII part: space, tab, newline, carriage return, vertical tab, form feed). -/
def pyIsSpace (c : Char) : Bool :=
  c = ' ' || c = '\t' || c = '\n' || c = '\x0d' || c = '\x0b' || c = '\x0c'

/-- Python `str.strip()` on a character list: remove leading and trailing
whitespace. -/
def pyStrip (l : List Char) : List Char :=
  ((l.dropWhile pyIsSpace).reverse.dropWhile pyIsSpace).reverse

/-- Accumulator worker for `pySplitWs`; `acc` holds the current token in
reverse order. -/
def pySplitWsAux : List Char → List Char → List (List Char)
  | [], acc => if acc.isEmpty then [] else [acc.reverse]
  | c :: rest, acc =>
    if pyIsSpace c then
      if acc.isEmpty then pySplitWsAux rest [] else acc.reverse :: pySplitWsAux rest []
    else pySplitWsAux rest (c :: acc)

/-- Python `str.split()` with no argument: the maximal runs of
non-whitespace characters, leading and trailing whitespace ignored. -/
def pySplitWs (l : List Char) : List (List Char) :=
  pySplitWsAux l []

/-- Accumulator worker for `pySplitLines`. -/
def pySplitLinesAux : List Char → List Char → List (List Char)
  | [], acc => if acc.isEmpty then [] else [acc.reverse]
  | c :: rest, acc =>
    if c = '\n' then acc.reverse :: pySplitLinesAux rest [] else pySplitLinesAux rest (c :: acc)

/-- Python `str.splitlines()` restricted to `\n` separators (a trailing
`\r` of a `\r\n` pair survives into the line and is removed by the
`strip` the source applies to every parsed field). -/
def pySplitLines (l : List Char) : List (List Char) :=
  pySplitLinesAux l []

/-- Test whether `p` occurs at the head of `l`. -/
def startsWith : List Char → List Char → Bool
  | [], _ => true
  | _ :: _, [] => false
  | p :: ps, c :: cs => p = c && startsWith ps cs

/-- Test whether `p` occurs as a contiguous segment anywhere in `l`
(Python `p in l` on strings). -/
def containsSeg (p : List Char) : List Char → Bool
  | [] => p.isEmpty
  | c :: rest => startsWith p (c :: rest) || containsSeg p rest

/-- The occurrence relation on strings used in statements: `pat` occurs as
a contiguous substring of `s`. -/
def strContains (s pat : String) : Prop :=
  containsSeg pat.data s.data = true

instance (s pat : String) : Decidable (strContains s pat) := by
  unfold strContains; infer_instance

/-- Worker for `pyReplace` on a non-empty pattern `pat`: leftmost,
non-overlapping replacement, exactly as Python `str.replace`; after an
accepted match at the current position, `skip` counts the remaining
matched characters still to be consumed. -/
def pyReplaceAux (pat new : List Char) : Nat → List Char → List Char
  | _, [] => []
  | k+1, _ :: rest => pyReplaceAux pat new k rest
  | 0, c :: rest =>
    if startsWith pat (c :: rest) then
      new ++ pyReplaceAux pat new (pat.length - 1) rest
    else
      c :: pyReplaceAux pat new 0 rest

/-- Python `str.replace(old, new)`.  An empty `old` inserts `new` before
every character and at the end, as Python does. -/
def pyReplace (old new s : List Char) : List Char :=
  match old with
  | [] => new ++ s.foldr (fun c acc => c :: (new ++ acc)) []
  | _ :: _ => pyReplaceAux old new 0 s

/-- Python `dict` insertion: an existing key keeps its position and gets the
new value, a fresh key is appended.  Models the insertion-ordered dict the
glossary parser builds. -/
def dictInsert (k v : List Char) (m : List (List Char × List Char)) :
    List (List Char × List Char) :=
  if m.any (fun p => p.1 = k) then
    m.map (fun p => if p.1 = k then (k, v) else p)
  else
    m ++ [(k, v)]

/-- Split a line at the first occurrence of the literal separator `=>`
(Python `line.split("=>", 1)`), or `none` when the separator is absent
(Python `"=>" in line` is false). -/
def splitArrow : List Char → Option (List Char × List Char)
  | [] => none
  | '=' :: '>' :: rest => some ([], rest)
  | c :: rest => (splitArrow rest).map (fun p => (c :: p.1, p.2))

/-- ASCII lowercase, modeling Python `str.lower()` on the ASCII filenames
and extensions the source handles. -/
def pyLower (l : List Char) : List Char :=
  l.map Char.toLower

/-- Python `filename.rsplit(".", 1)[-1]`: the segment after the last dot,
or the whole string when no dot occurs. -/
def afterLastDot (l : List Char) : List Char :=
  (l.reverse.takeWhile (fun c => ¬ c = '.')).reverse

/-- A byte is a UTF-8 continuation byte (0x80..0xBF). -/
def isCont (b : Nat) : Bool :=
  0x80 ≤ b && b ≤ 0xBF

/-- Valid range of the first continuation byte after a three-byte lead
(0xE0 excludes overlong forms, 0xED excludes surrogates). -/
def cont1ok3 (b c1 : Nat) : Bool :=
  if b = 0xE0 then 0xA0 ≤ c1 && c1 ≤ 0xBF
  else if b = 0xED then 0x80 ≤ c1 && c1 ≤ 0x9F
  else isCont c1

/-- Valid range of the first continuation byte after a four-byte lead
(0xF0 excludes overlong forms, 0xF4 caps at U+10FFFF). -/
def cont1ok4 (b c1 : Nat) : Bool :=
  if b = 0xF0 then 0x90 ≤ c1 && c1 ≤ 0xBF
  else if b = 0xF4 then 0x80 ≤ c1 && c1 ≤ 0x8F
  else isCont c1

/-- Length of the longest valid UTF-8 sequence starting at lead byte `b`
that is present at the head of `b :: rest`, together with the decoded
character; `none` when `b` begins no valid sequence (then the maximal
valid subpart has length `utf8BadLen b rest`). -/
def utf8Step (b : Nat) (rest : List Nat) : Option (Char × Nat) :=
  if b < 0x80 then some (Char.ofNat b, 0)
  else if b < 0xC2 then none
  else if b ≤ 0xDF then
    match rest with
    | c1 :: _ =>
      if isCont c1 then some (Char.ofNat ((b - 0xC0) * 64 + (c1 - 0x80)), 1) else none
    | [] => none
  else if b ≤ 0xEF then
    match rest with
    | c1 :: c2 :: _ =>
      if cont1ok3 b c1 && isCont c2 then
        some (Char.ofNat ((b - 0xE0) * 4096 + (c1 - 0x80) * 64 + (c2 - 0x80)), 2)
      else none
    | _ => none
  else if b ≤ 0xF4 then
    match rest with
    | c1 :: c2 :: c3 :: _ =>
      if cont1ok4 b c1 && isCont c2 && isCont c3 then
        some (Char.ofNat ((b - 0xF0) * 262144 + (c1 - 0x80) * 4096 +
            (c2 - 0x80) * 64 + (c3 - 0x80)), 3)
      else none
    | _ => none
  else none

/-- Number of bytes of the invalid maximal subpart starting at lead byte
`b` (the lead plus its valid continuation bytes), which an error handler
consumes as one error before resynchronizing. -/
def utf8BadLen (b : Nat) (rest : List Nat) : Nat :=
  if b ≤ 0xDF then 1
  else if b ≤ 0xEF then
    match rest with
    | c1 :: _ => if cont1ok3 b c1 then 2 else 1
    | [] => 1
  else if b ≤ 0xF4 then
    match rest with
    | c1 :: c2 :: _ =>
      if cont1ok4 b c1 then (if isCont c2 then 3 else 2) else 1
    | [c1] => if cont1ok4 b c1 then 2 else 1
    | [] => 1
  else 1

/-- Worker for `utf8DecodeIgnore`; `skip` counts continuation bytes of an
already-consumed sequence still to be passed over. -/
def utf8DecodeIgnoreAux : Nat → List Nat → List Char
  | _, [] => []
  | k+1, _ :: rest => utf8DecodeIgnoreAux k rest
  | 0, b :: rest =>
    match utf8Step b rest with
    | some p => p.1 :: utf8DecodeIgnoreAux p.2 rest
    | none => utf8DecodeIgnoreAux (utf8BadLen b rest - 1) rest

/-- Python `bytes.decode("utf-8", errors="ignore")`: standard UTF-8
decoding where every invalid maximal subpart is skipped (dropped) and
decoding continues at the next byte; a truncated sequence at the end of
input is likewise dropped. -/
def utf8DecodeIgnore (l : List Nat) : List Char :=
  utf8DecodeIgnoreAux 0 l

/-- Worker for `utf8DecodeReplace`. -/
def utf8DecodeReplaceAux : Nat → List Nat → List Char
  | _, [] => []
  | k+1, _ :: rest => utf8DecodeReplaceAux k rest
  | 0, b :: rest =>
    match utf8Step b rest with
    | some p => p.1 :: utf8DecodeReplaceAux p.2 rest
    | none => Char.ofNat 0xFFFD :: utf8DecodeReplaceAux (utf8BadLen b rest - 1) rest

/-- Modelled from the spec: the decoding policy the specification words
describe for plain-text extraction, namely permissive UTF-8 decoding that
REPLACES every invalid maximal subpart with U+FFFD instead of dropping it
(Python `errors="replace"`); the source instead uses `errors="ignore"`.
Used only to compare the specified policy against the code. -/
def utf8DecodeReplace (l : List Nat) : List Char :=
  utf8DecodeReplaceAux 0 l

/-- Python `ch.encode("utf-8")` for a single character. -/
def utf8EncodeChar (c : Char) : List Nat :=
  let n := c.toNat
  if n < 0x80 then [n]
  else if n < 0x800 then [0xC0 + n / 64, 0x80 + n % 64]
  else if n < 0x10000 then
    [0xE0 + n / 4096, 0x80 + (n / 64) % 64, 0x80 + n % 64]
  else
    [0xF0 + n / 262144, 0x80 + (n / 4096) % 64, 0x80 + (n / 64) % 64, 0x80 + n % 64]

/-- Python `s.encode("utf-8")`. -/
def utf8Encode (l : List Char) : List Nat :=
  l.foldr (fun c acc => utf8EncodeChar c ++ acc) []

/-! The functions of src/app.py -/

/-- Source: `ALLOWED_EXTENSIONS = {"txt", "pdf", "docx"}`. -/
def ALLOWED_EXTENSIONS : List (List Char) :=
  ["txt".data, "pdf".data, "docx".data]

/-- Source `allowed_file`: a dot occurs in the filename and the lowered
segment after the last dot is an allowed extension. -/
def allowed_file (filename : String) : Bool :=
  filename.data.contains '.' &&
    ALLOWED_EXTENSIONS.contains (pyLower (afterLastDot filename.data))

/-- Source `count_words`: `len((text or "").split())`.  The argument is
optional because the source calls it with a possibly-`None` value. -/
def count_words (text : Option String) : Nat :=
  (pySplitWs ((text.getD "").data)).length

/-- Rounding of a rational to two decimal places, modeling Python
`round(x, 2)` as applied by `compute_price`; the binary-float
representation noise of the source is not modeled, and decimal ties are
resolved upward, matching the observed float behavior of the formula. -/
def round2 (q : ℚ) : ℚ :=
  ((⌊q * 100 + 1 / 2⌋ : ℤ) : ℚ) / 100

/-- Source `compute_price` multiplier table: the dict
`{"legal": 1.5, "medical": 1.6, "technical": 1.3}.get(domain, 1.0)`;
`domain` is optional because the form field may be absent. -/
def domainMultiplier (domain : Option String) : ℚ :=
  match domain with
  | some d => if d = "legal" then 3 / 2
      else if d = "medical" then 8 / 5
      else if d = "technical" then 13 / 10
      else 1
  | none => 1

/-- Source `compute_price`: `round(words * base_rate * multiplier, 2)`
with `base_rate = 0.05`. -/
def compute_price (words : Nat) (domain : Option String) : ℚ :=
  round2 ((words : ℚ) * (5 / 100) * domainMultiplier domain)

/-- Source `parse_glossary`: over `glossary_raw or ""`, one pair per line
containing the separator `=>` (split at the first occurrence, both sides
stripped), accumulated into an insertion-ordered dict where a repeated
source term keeps its position and takes the later target. -/
def parse_glossary (glossary_raw : Option String) : List (List Char × List Char) :=
  (pySplitLines ((glossary_raw.getD "").data)).foldl
    (fun m line =>
      match splitArrow line with
      | some p => dictInsert (pyStrip p.1) (pyStrip p.2) m
      | none => m)
    []

/-- Source `apply_glossary`: sequential naive `str.replace` of every
glossary pair, in dict iteration order, each replacement operating on the
already-substituted text. -/
def apply_glossary (text : String) (glossary_raw : Option String) : String :=
  ⟨(parse_glossary glossary_raw).foldl (fun t p => pyReplace p.1 p.2 t) text.data⟩

/-- Python `f"{x}"` on an optional string: `None` prints as `None`. -/
def pyStrOfOpt : Option String → String
  | some s => s
  | none => "None"

/-- Source `deepl_translate`, branch with no `DEEPL_API_KEY` configured:
`f"[NO DEEPL_API_KEY SET]\n\nOriginal:\n{text}"`. -/
def deepl_translate_no_key (text : Option String) : String :=
  "[NO DEEPL_API_KEY SET]\n\nOriginal:\n" ++ pyStrOfOpt text

/-- The translator the pipeline runs when no API key is configured: the
placeholder result, never a failure. -/
def noKeyTranslator : Option String → Except String String :=
  fun t => Except.ok (deepl_translate_no_key t)

/-- Source `read_file_content`.  `docx` and `pdf` abstract the two
external extraction libraries (python-docx and pdfplumber), which may
fail; the `txt` branch is `bytes.decode("utf-8", errors="ignore")`.
`werkzeug.secure_filename` is modeled as the identity: it sanitizes the
name but preserves the extension of every well-formed `base.ext` name the
claims quantify over.  The extension check raises
`ValueError(f"Unsupported file type: .{ext}")` before any read of the
file content, modeled by the result depending on neither the bytes nor
the extraction functions in that branch. -/
def read_file_content (docx pdf : List Nat → Except String String)
    (filename : String) (bytes : List Nat) : Except String String :=
  let ext := pyLower (afterLastDot filename.data)
  if ¬ ALLOWED_EXTENSIONS.contains ext then
    Except.error ("Unsupported file type: ." ++ String.mk ext)
  else if ext = "txt".data then
    Except.ok (String.mk (utf8DecodeIgnore bytes))
  else if ext = "docx".data then
    docx bytes
  else
    pdf bytes

/-! Data model and store (the SQLAlchemy models, rows as list entries) -/

/-- Source model `Job`: one row of the `job` table.  `status` is kept as a
string, exactly as the column is. -/
structure Job where
  id : Nat
  job_uuid : String
  client_email : Option String
  source_lang : Option String
  target_lang : Option String
  domain : Option String
  tone : Option String
  deadline : Option String
  word_count : Option Nat
  price_estimate : Option ℚ
  status : String
  intent : Option String
  glossary_raw : Option String
  original_filename : Option String
  original_text : Option String
  translated_text : Option String
  error_message : Option String
deriving DecidableEq, Repr

/-- Source model `AuditLog`: one row of the audit table.  `job_id` is
the nullable foreign key to `job.id`. -/
structure AuditLog where
  id : Nat
  job_id : Option Nat
  event_type : String
  description : String
deriving DecidableEq, Repr

/-- The relational store: the `job` and `auditlog` tables plus their
autoincrement counters. -/
structure Store where
  jobs : List Job
  audit : List AuditLog
  nextJobId : Nat
  nextAuditId : Nat
deriving DecidableEq, Repr

/-- Fresh store of an empty database. -/
def emptyStore : Store :=
  { jobs := [], audit := [], nextJobId := 1, nextAuditId := 1 }

/-- Source `log_event`: append one `AuditLog` row for the given job id
and commit. -/
def log_event (st : Store) (jobId : Nat) (event_type description : String) : Store :=
  { st with
    audit := st.audit ++ [{ id := st.nextAuditId, job_id := some jobId,
                            event_type := event_type, description := description }]
    nextAuditId := st.nextAuditId + 1 }

/-- Commit of a mutated job row: replace the row with the same primary
key. -/
def updateJob (st : Store) (j : Job) : Store :=
  { st with jobs := st.jobs.map (fun k => if k.id = j.id then j else k) }

/-- Source `Job.query.filter_by(job_uuid=...).first()`. -/
def find_by_uuid (st : Store) (u : String) : Option Job :=
  st.jobs.find? (fun j => j.job_uuid = u)

/-! The job pipeline -/

/-- The form metadata `create_and_run_job` receives from the request;
every field is an optional string, as `request.form.get` returns. -/
structure FormMeta where
  client_email : Option String := none
  source_lang : Option String := none
  target_lang : Option String := none
  domain : Option String := none
  tone : Option String := none
  deadline : Option String := none
  intent : Option String := none
  glossary_raw : Option String := none
deriving DecidableEq, Repr

/-- Result of one pipeline run: the final store, the final state of the
job row the run created, the message of an exception that escaped the
function uncaught (if any), and the sequence of values the status column
took, in order. -/
structure RunOut where
  store : Store
  job : Job
  exn : Option String
  trace : List String
deriving DecidableEq, Repr

/-- The text-acquisition step of `create_and_run_job`: keep the given
`original_text`, or substitute the extraction result when a file was
passed instead.  An extraction failure surfaces as the error of the
`Except`, which in the source is an exception raised OUTSIDE the
`try` block. -/
def extractStep (original_text : Option String)
    (file_extract : Option (Except String String)) :
    Except String (Option String) :=
  match original_text, file_extract with
  | none, some r => r.map some
  | t, _ => Except.ok t

/-- Source `create_and_run_job`.  `translate` abstracts `deepl_translate`
(a network call that may raise, passed the possibly-`None` original
text); `file_extract` is the result `read_file_content` produces for the
uploaded file, when one was passed; `new_uuid` stands for the generated
`uuid4` token.  The function mirrors the source statement for statement:
the job row is created and committed in status Uploaded with an `upload`
audit event; the extraction step runs BEFORE the `try` block, so its
failure escapes as an uncaught exception, with the job left committed in
status Uploaded; then the row moves to Translating with an audit event;
inside the `try`, translation, glossary application, word count and price
are computed and the row moves to Done, while any translation failure is
caught and recorded as status Error with `error_message` set. -/
def create_and_run_job (translate : Option String → Except String String)
    (m : FormMeta) (new_uuid : String)
    (original_text : Option String) (original_filename : Option String)
    (file_extract : Option (Except String String)) (st : Store) : RunOut :=
  let job0 : Job :=
    { id := st.nextJobId, job_uuid := new_uuid,
      client_email := m.client_email, source_lang := m.source_lang,
      target_lang := m.target_lang, domain := m.domain, tone := m.tone,
      deadline := m.deadline, intent := m.intent, status := "Uploaded",
      glossary_raw := m.glossary_raw, original_filename := original_filename,
      word_count := none, price_estimate := none, original_text := none,
      translated_text := none, error_message := none }
  let st1 : Store := { st with jobs := st.jobs ++ [job0], nextJobId := st.nextJobId + 1 }
  let st2 := log_event st1 job0.id "upload" "Job created"
  match extractStep original_text file_extract with
  | Except.error e =>
    { store := st2, job := job0, exn := some e, trace := ["Uploaded"] }
  | Except.ok text1 =>
    let job1 := { job0 with original_text := text1, status := "Translating" }
    let st3 := log_event (updateJob st2 job1) job1.id "status_change" "Status -> Translating"
    match translate text1 with
    | Except.ok tr0 =>
      let tr := apply_glossary tr0 m.glossary_raw
      let words := count_words text1
      let job2 := { job1 with
        translated_text := some tr, word_count := some words,
        price_estimate := some (compute_price words m.domain), status := "Done" }
      { store := log_event (updateJob st3 job2) job2.id "status_change" "Status -> Done",
        job := job2, exn := none, trace := ["Uploaded", "Translating", "Done"] }
    | Except.error e =>
      let job2 := { job1 with status := "Error", error_message := some e }
      { store := log_event (updateJob st3 job2) job2.id "error" e,
        job := job2, exn := none, trace := ["Uploaded", "Translating", "Error"] }

/-! Routes -/

/-- One uploaded file of a POST request: its declared filename and raw
bytes. -/
structure FileUpload where
  filename : String
  bytes : List Nat
deriving DecidableEq, Repr

/-- Outcome of the POST branch of `upload_translate`: the rejection
flash-and-redirect, a page for the created jobs, or an uncaught exception
(HTTP 500). -/
inductive UploadOutcome where
  | rejected : UploadOutcome
  | pages : List Job → UploadOutcome
  | serverError : String → UploadOutcome
deriving DecidableEq, Repr

/-- The generated `uuid4` token of a run, modeled as a fresh token derived
from the job autoincrement id. -/
def freshUuid (n : Nat) : String :=
  "uuid-" ++ toString n

/-- The file loop of `upload_translate`: files with an empty name are
skipped, files failing `allowed_file` are flashed and skipped, every
other file gets its own pipeline run; an exception escaping a run aborts
the whole request (remaining files unprocessed). -/
def processFiles (translate : Option String → Except String String)
    (docx pdf : List Nat → Except String String) (m : FormMeta) :
    List FileUpload → Store → Store × List Job × Option String
  | [], st => (st, [], none)
  | f :: fs, st =>
    if f.filename = "" then processFiles translate docx pdf m fs st
    else if ¬ allowed_file f.filename then processFiles translate docx pdf m fs st
    else
      let r := create_and_run_job translate m (freshUuid st.nextJobId) none
        (some f.filename) (some (read_file_content docx pdf f.filename f.bytes)) st
      match r.exn with
      | some e => (r.store, [], some e)
      | none =>
        let rest := processFiles translate docx pdf m fs r.store
        (rest.1, r.job :: rest.2.1, rest.2.2)

/-- The POST branch of source `upload_translate`: run the pipeline for
the pasted text when its stripped form is non-empty, then for every
acceptable uploaded file; when no job at all was created, flash and
redirect (rejection); an uncaught pipeline exception becomes an HTTP
500. -/
def upload_translate_post (translate : Option String → Except String String)
    (docx pdf : List Nat → Except String String) (m : FormMeta)
    (pasted_text : Option String) (files : List FileUpload) (st : Store) :
    Store × UploadOutcome :=
  let pt := pasted_text.getD ""
  let pastedRun :=
    if pyStrip pt.data ≠ [] then
      let r := create_and_run_job translate m (freshUuid st.nextJobId) (some pt) none none st
      (r.store, [r.job], r.exn)
    else (st, [], (none : Option String))
  match pastedRun.2.2 with
  | some e => (pastedRun.1, UploadOutcome.serverError e)
  | none =>
    let fileRun := processFiles translate docx pdf m files pastedRun.1
    match fileRun.2.2 with
    | some e => (fileRun.1, UploadOutcome.serverError e)
    | none =>
      let jobs := pastedRun.2.1 ++ fileRun.2.1
      if jobs.isEmpty then (fileRun.1, UploadOutcome.rejected)
      else (fileRun.1, UploadOutcome.pages jobs)

/-- Python falsy-or on an optional string: `None` and the empty string
both fall through to the default (`job.original_filename or
"translation"`). -/
def orFalsy (o : Option String) (d : String) : String :=
  match o with
  | some s => if s = "" then d else s
  | none => d

/-- Source `download_job`: look the job up by its external id (404 when
absent, modeled as `none`); otherwise, regardless of status, serve the
UTF-8 encoding of `translated_text or ""` under the name
the original filename, or the word translation, suffixed with .txt. -/
def download_route (st : Store) (u : String) : Option (List Nat × String) :=
  (find_by_uuid st u).map (fun j =>
    (utf8Encode (j.translated_text.getD "").data,
     orFalsy j.original_filename "translation" ++ ".txt"))

/-- Source `admin_delete`: look the job up by its external id (404 when
absent); log a `delete` audit event, then delete the job row.  The
`AuditLog.job` relationship declares no delete cascade, so SQLAlchemy
deletes the parent row and NULLs the `job_id` foreign key of its audit
rows instead of deleting them.  Returns the new store and the deleted
job, or `none` for the 404 case. -/
def admin_delete (st : Store) (u : String) : Store × Option Job :=
  match find_by_uuid st u with
  | none => (st, none)
  | some j =>
    let st1 := log_event st j.id "delete" "Job deleted by admin"
    ({ st1 with
        jobs := st1.jobs.filter (fun k => ¬ k.id = j.id),
        audit := st1.audit.map (fun e =>
          if e.job_id = some j.id then { e with job_id := none } else e) },
     some j)

/-- The number of jobs a `pages` outcome carries, `none` for the other
outcomes; lets closed statements inspect the outcome without binders. -/
def pagesCount : UploadOutcome → Option Nat
  | UploadOutcome.pages js => some js.length
  | _ => none

/-- The precondition of the idempotence claim, as the source words it: no
glossary target term equals a glossary source term. -/
def noTargetIsSource (g : Option String) : Bool :=
  (parse_glossary g).all (fun p => (parse_glossary g).all (fun q => ¬ p.2 = q.1))

/-- The status strings the state machine admits. -/
def statusOK (s : String) : Prop :=
  s = "Uploaded" ∨ s = "Translating" ∨ s = "Done" ∨ s = "Error"

/-- The admissible status transitions: Uploaded to Translating, and
Translating to Done or Error. -/
def stepOK (a b : String) : Prop :=
  (a = "Uploaded" ∧ b = "Translating") ∨
    (a = "Translating" ∧ (b = "Done" ∨ b = "Error"))

instance (s : String) : Decidable (statusOK s) := by
  unfold statusOK; infer_instance

instance (a b : String) : Decidable (stepOK a b) := by
  unfold stepOK; infer_instance

/-- The mutual-exclusion and terminal-state field discipline of a job
row: Done rows carry a translation and no error message, Error rows the
reverse, and no row carries both. -/
def jobFieldsConsistent (j : Job) : Prop :=
  (j.status = "Done" → j.translated_text ≠ none ∧ j.error_message = none) ∧
  (j.status = "Error" → j.error_message ≠ none ∧ j.translated_text = none) ∧
  ¬ (j.translated_text ≠ none ∧ j.error_message ≠ none)

/-- A job row used by the C10 witness: status Translating, no translated
text, no original filename. -/
def c10Job : Job :=
  { id := 1, job_uuid := "w", client_email := none, source_lang := none,
    target_lang := none, domain := none, tone := none, deadline := none,
    word_count := none, price_estimate := none, status := "Translating",
    intent := none, glossary_raw := none, original_filename := none,
    original_text := none, translated_text := none, error_message := none }

/-- A job row used by the C4 scenario: one completed job. -/
def c4Job : Job :=
  { id := 1, job_uuid := "u1", client_email := none, source_lang := none,
    target_lang := none, domain := none, tone := none, deadline := none,
    word_count := none, price_estimate := none, status := "Done",
    intent := none, glossary_raw := none, original_filename := none,
    original_text := none, translated_text := some "T", error_message := none }

/-- The store of the C4 scenario: the job of `c4Job` with its three audit
events. -/
def c4Store : Store :=
  { jobs := [c4Job],
    audit := [{ id := 1, job_id := some 1, event_type := "upload",
                description := "Job created" },
              { id := 2, job_id := some 1, event_type := "status_change",
                description := "Status -> Translating" },
              { id := 3, job_id := some 1, event_type := "status_change",
                description := "Status -> Done" }],
    nextJobId := 2, nextAuditId := 4 }

/-! Helper lemmas -/

lemma string_data_append (a b : String) : (a ++ b).data = a.data ++ b.data := rfl

lemma startsWith_self_append (p r : List Char) : startsWith p (p ++ r) = true := by
  induction p with
  | nil => rfl
  | cons c cs ih => simp [startsWith, ih]

lemma containsSeg_of_startsWith {p l : List Char} (h : startsWith p l = true) :
    containsSeg p l = true := by
  cases l with
  | nil =>
    cases p with
    | nil => rfl
    | cons c cs => simp [startsWith] at h
  | cons c cs => simp [containsSeg, h]

lemma containsSeg_append_left (a : List Char) {p l : List Char}
    (h : containsSeg p l = true) : containsSeg p (a ++ l) = true := by
  induction a with
  | nil => simpa using h
  | cons c cs ih => simp [containsSeg, ih]

lemma containsSeg_self_append (p r : List Char) : containsSeg p (p ++ r) = true :=
  containsSeg_of_startsWith (startsWith_self_append p r)

lemma containsSeg_append_self (a p : List Char) : containsSeg p (a ++ p) = true :=
  containsSeg_append_left a
    (containsSeg_of_startsWith (by simpa using startsWith_self_append p []))

lemma containsSeg_cons_false {p : List Char} {c : Char} {rest : List Char}
    (h : containsSeg p (c :: rest) = false) :
    startsWith p (c :: rest) = false ∧ containsSeg p rest = false := by
  simp [containsSeg] at h
  exact ⟨h.1, h.2⟩

lemma pyReplaceAux_no_occ (pat new : List Char) :
    ∀ s : List Char, containsSeg pat s = false → pyReplaceAux pat new 0 s = s := by
  intro s
  induction s with
  | nil => intro _; rfl
  | cons c rest ih =>
    intro h
    obtain ⟨h1, h2⟩ := containsSeg_cons_false h
    simp [pyReplaceAux, h1, ih h2]

lemma pyReplace_no_occ {old : List Char} (new : List Char) {s : List Char}
    (h : containsSeg old s = false) : pyReplace old new s = s := by
  cases old with
  | nil =>
    exfalso
    cases s with
    | nil => simp [containsSeg] at h
    | cons c rest => simp [containsSeg, startsWith] at h
  | cons o os => exact pyReplaceAux_no_occ (o :: os) new s h

lemma foldl_replace_no_occ :
    ∀ (pairs : List (List Char × List Char)) (s : List Char),
      (∀ p ∈ pairs, containsSeg p.1 s = false) →
      pairs.foldl (fun t p => pyReplace p.1 p.2 t) s = s := by
  intro pairs
  induction pairs with
  | nil => intro s _; rfl
  | cons p ps ih =>
    intro s h
    have hp : pyReplace p.1 p.2 s = s := pyReplace_no_occ p.2 (h p (by simp))
    simp only [List.foldl_cons, hp]
    exact ih s (fun q hq => h q (by simp [hq]))

lemma apply_glossary_fixed (g : Option String) {s : String}
    (h : ∀ p ∈ parse_glossary g, containsSeg p.1 s.data = false) :
    apply_glossary s g = s := by
  unfold apply_glossary
  rw [foldl_replace_no_occ (parse_glossary g) s.data h]

lemma strAppendAssoc (a b c : String) : a ++ b ++ c = a ++ (b ++ c) := by
  obtain ⟨la⟩ := a
  obtain ⟨lb⟩ := b
  obtain ⟨lc⟩ := c
  show String.mk ((la ++ lb) ++ lc) = String.mk (la ++ (lb ++ lc))
  rw [List.append_assoc]

lemma find_by_uuid_eq_none {st : Store} {u : String}
    (h : ∀ x ∈ st.jobs, ¬ x.job_uuid = u) : find_by_uuid st u = none := by
  unfold find_by_uuid
  apply List.find?_eq_none.mpr
  intro x hx
  simpa using h x hx

lemma mem_map_update {l : List Job} {i : Nat} {jnew j : Job}
    (h : j ∈ l.map (fun k => if k.id = i then jnew else k)) :
    j ∈ l ∨ j = jnew := by
  obtain ⟨k, hk, hj⟩ := List.mem_map.mp h
  by_cases hid : k.id = i
  · right; rw [← hj]; simp [hid]
  · left; rw [← hj]; simpa [hid] using hk

lemma pySplitWsAux_nil_of_space :
    ∀ l : List Char, (∀ c ∈ l, pyIsSpace c = true) → pySplitWsAux l [] = [] := by
  intro l
  induction l with
  | nil => intro _; rfl
  | cons c rest ih =>
    intro h
    have hc : pyIsSpace c = true := h c (by simp)
    simp [pySplitWsAux, hc, ih (fun d hd => h d (by simp [hd]))]

lemma processFiles_skip (translate : Option String → Except String String)
    (docx pdf : List Nat → Except String String) (m : FormMeta) :
    ∀ (files : List FileUpload) (st : Store),
      (∀ f ∈ files, f.filename = "" ∨ allowed_file f.filename = false) →
      processFiles translate docx pdf m files st = (st, [], none) := by
  intro files
  induction files with
  | nil => intro st _; rfl
  | cons f fs ih =>
    intro st h
    have hf := h f (by simp)
    have hrest : ∀ g ∈ fs, g.filename = "" ∨ allowed_file g.filename = false :=
      fun g hg => h g (by simp [hg])
    rcases hf with hf | hf
    · simp [processFiles, hf, ih st hrest]
    · by_cases hname : f.filename = ""
      · simp [processFiles, hname, ih st hrest]
      · simp [processFiles, hname, hf, ih st hrest]

lemma run_store_jobs (translate : Option String → Except String String) (m : FormMeta)
    (u : String) (ot ofn : Option String) (fe : Option (Except String String))
    (st : Store) :
    ∀ j ∈ (create_and_run_job translate m u ot ofn fe st).store.jobs,
      j ∈ st.jobs ∨ j = (create_and_run_job translate m u ot ofn fe st).job ∨
        ((j.status = "Uploaded" ∨ j.status = "Translating") ∧
          j.translated_text = none ∧ j.error_message = none) := by
  intro j hj
  cases hex : extractStep ot fe with
  | error e =>
    simp only [create_and_run_job, hex, log_event] at hj ⊢
    rcases List.mem_append.mp hj with h | h
    · exact Or.inl h
    · right; left; simpa using h
  | ok t =>
    cases htr : translate t with
    | ok tr =>
      simp only [create_and_run_job, hex, htr, log_event, updateJob] at hj ⊢
      rcases mem_map_update hj with h2 | h2
      · rcases mem_map_update h2 with h1 | h1
        · rcases List.mem_append.mp h1 with h0 | h0
          · exact Or.inl h0
          · right; right
            rw [List.mem_singleton.mp h0]
            exact ⟨Or.inl rfl, rfl, rfl⟩
        · right; right
          rw [h1]
          exact ⟨Or.inr rfl, rfl, rfl⟩
      · exact Or.inr (Or.inl h2)
    | error msg =>
      simp only [create_and_run_job, hex, htr, log_event, updateJob] at hj ⊢
      rcases mem_map_update hj with h2 | h2
      · rcases mem_map_update h2 with h1 | h1
        · rcases List.mem_append.mp h1 with h0 | h0
          · exact Or.inl h0
          · right; right
            rw [List.mem_singleton.mp h0]
            exact ⟨Or.inl rfl, rfl, rfl⟩
        · right; right
          rw [h1]
          exact ⟨Or.inr rfl, rfl, rfl⟩
      · exact Or.inr (Or.inl h2)

/-! Claim C1: pipeline failure policy -/

/-- C1 (amended): a translator failure is absorbed by the pipeline into
terminal status Error with the failure message recorded in error_message
and no exception reaching the caller; an extraction failure, raised
before the try block of the source, instead escapes the pipeline as an
uncaught exception, leaving the job committed in status Uploaded with no
error_message. -/
theorem C1_failure_policy :
    ∀ (translate : Option String → Except String String) (m : FormMeta) (u : String)
      (ot ofn : Option String) (fe : Option (Except String String)) (st : Store),
      (∀ t, extractStep ot fe = Except.ok t →
        (create_and_run_job translate m u ot ofn fe st).exn = none) ∧
      (∀ t msg, extractStep ot fe = Except.ok t → translate t = Except.error msg →
        (create_and_run_job translate m u ot ofn fe st).job.status = "Error" ∧
        (create_and_run_job translate m u ot ofn fe st).job.error_message = some msg) ∧
      (∀ e, extractStep ot fe = Except.error e →
        (create_and_run_job translate m u ot ofn fe st).exn = some e ∧
        (create_and_run_job translate m u ot ofn fe st).job.status = "Uploaded" ∧
        (create_and_run_job translate m u ot ofn fe st).job.error_message = none ∧
        (create_and_run_job translate m u ot ofn fe st).job ∈
          (create_and_run_job translate m u ot ofn fe st).store.jobs) := by
  intro translate m u ot ofn fe st
  refine ⟨?_, ?_, ?_⟩
  · intro t h
    cases htr : translate t with
    | ok tr => simp [create_and_run_job, h, htr]
    | error e => simp [create_and_run_job, h, htr]
  · intro t msg h htr
    constructor <;> simp [create_and_run_job, h, htr]
  · intro e h
    refine ⟨?_, ?_, ?_, ?_⟩ <;> simp [create_and_run_job, h, log_event]

/-- C1 witness: a failing remote translator call on pasted text yields a
job in status Error carrying the message. -/
theorem C1_failure_policy_witness :
    (create_and_run_job (fun _ => Except.error "DeepL HTTP 500") {} "u"
      (some "hi") none none emptyStore).job.status = "Error" ∧
    (create_and_run_job (fun _ => Except.error "DeepL HTTP 500") {} "u"
      (some "hi") none none emptyStore).job.error_message = some "DeepL HTTP 500" :=
  (C1_failure_policy (fun _ => Except.error "DeepL HTTP 500") {} "u"
    (some "hi") none none emptyStore).2.1 (some "hi") "DeepL HTTP 500"
    (by decide) (by decide)

/-- C1 counterexample: a failing extraction is not absorbed: the
exception escapes the pipeline to the caller and the committed job stays
in status Uploaded, not Error. -/
theorem C1_counterexample :
    (create_and_run_job noKeyTranslator {} "u" none (some "broken.pdf")
      (some (Except.error "PDF parse failure")) emptyStore).exn =
      some "PDF parse failure" ∧
    (create_and_run_job noKeyTranslator {} "u" none (some "broken.pdf")
      (some (Except.error "PDF parse failure")) emptyStore).job.status = "Uploaded" ∧
    ((create_and_run_job noKeyTranslator {} "u" none (some "broken.pdf")
      (some (Except.error "PDF parse failure")) emptyStore).job.status == "Error") =
      false := by
  exact ⟨by decide, by decide, by decide⟩

/-! Claim C2: field mutual exclusion -/

/-- C2: the job record a pipeline run produces has translated_text set
and error_message unset when Done, the reverse when Error, and never
both; and every job in the resulting store either was already there or
satisfies the same discipline. -/
theorem C2_field_invariant :
    ∀ (translate : Option String → Except String String) (m : FormMeta) (u : String)
      (ot ofn : Option String) (fe : Option (Except String String)) (st : Store),
      jobFieldsConsistent (create_and_run_job translate m u ot ofn fe st).job ∧
      (∀ j ∈ (create_and_run_job translate m u ot ofn fe st).store.jobs,
        j ∈ st.jobs ∨ jobFieldsConsistent j) := by
  intro translate m u ot ofn fe st
  have hjob : jobFieldsConsistent (create_and_run_job translate m u ot ofn fe st).job := by
    cases hex : extractStep ot fe with
    | error e => simp [create_and_run_job, hex, jobFieldsConsistent]
    | ok t =>
      cases htr : translate t with
      | ok tr => simp [create_and_run_job, hex, htr, jobFieldsConsistent]
      | error msg => simp [create_and_run_job, hex, htr, jobFieldsConsistent]
  refine ⟨hjob, ?_⟩
  intro j hj
  rcases run_store_jobs translate m u ot ofn fe st j hj with h | h | h
  · exact Or.inl h
  · right; rw [h]; exact hjob
  · right
    rcases h with ⟨hs, ht, he⟩
    refine ⟨?_, ?_, ?_⟩
    · intro hd
      rcases hs with hs | hs <;> (rw [hs] at hd; exact absurd hd (by decide))
    · intro hd
      rcases hs with hs | hs <;> (rw [hs] at hd; exact absurd hd (by decide))
    · intro hcon
      exact hcon.1 ht

/-- C2 witness: the Done job of a concrete run carries no error
message. -/
theorem C2_field_invariant_witness :
    (create_and_run_job noKeyTranslator {} "u" (some "hi") none none
      emptyStore).job.error_message = none :=
  ((C2_field_invariant noKeyTranslator {} "u" (some "hi") none none
    emptyStore).1.1 (by decide)).2

/-! Claim C3: the state machine -/

/-- C3: every pipeline run assigns the status column one of the traces
Uploaded, Uploaded-Translating-Done or Uploaded-Translating-Error, so the
status is always one of the four admissible strings, consecutive
assignments follow only the admissible transitions, Done and Error are
terminal, and no run re-enters a left state; the administrative delete
never alters a surviving job row. -/
theorem C3_status_transitions :
    (∀ (translate : Option String → Except String String) (m : FormMeta) (u : String)
      (ot ofn : Option String) (fe : Option (Except String String)) (st : Store),
      ((create_and_run_job translate m u ot ofn fe st).trace = ["Uploaded"] ∨
        (create_and_run_job translate m u ot ofn fe st).trace =
          ["Uploaded", "Translating", "Done"] ∨
        (create_and_run_job translate m u ot ofn fe st).trace =
          ["Uploaded", "Translating", "Error"]) ∧
      (∀ s ∈ (create_and_run_job translate m u ot ofn fe st).trace, statusOK s) ∧
      List.Chain' stepOK (create_and_run_job translate m u ot ofn fe st).trace) ∧
    (∀ (st : Store) (u : String) (j : Job),
      j ∈ (admin_delete st u).1.jobs → j ∈ st.jobs) := by
  constructor
  · intro translate m u ot ofn fe st
    have htr : (create_and_run_job translate m u ot ofn fe st).trace = ["Uploaded"] ∨
        (create_and_run_job translate m u ot ofn fe st).trace =
          ["Uploaded", "Translating", "Done"] ∨
        (create_and_run_job translate m u ot ofn fe st).trace =
          ["Uploaded", "Translating", "Error"] := by
      cases hex : extractStep ot fe with
      | error e => left; simp [create_and_run_job, hex]
      | ok t =>
        cases htr2 : translate t with
        | ok tr => right; left; simp [create_and_run_job, hex, htr2]
        | error msg => right; right; simp [create_and_run_job, hex, htr2]
    have l1 : ∀ s ∈ (["Uploaded"] : List String), statusOK s := by decide
    have l2 : ∀ s ∈ (["Uploaded", "Translating", "Done"] : List String), statusOK s := by
      decide
    have l3 : ∀ s ∈ (["Uploaded", "Translating", "Error"] : List String), statusOK s := by
      decide
    have c1 : List.Chain' stepOK ["Uploaded"] := by simp
    have c2 : List.Chain' stepOK ["Uploaded", "Translating", "Done"] := by
      simp [List.chain'_cons, List.chain'_singleton]
      exact ⟨by decide, by decide⟩
    have c3 : List.Chain' stepOK ["Uploaded", "Translating", "Error"] := by
      simp [List.chain'_cons, List.chain'_singleton]
      exact ⟨by decide, by decide⟩
    rcases htr with h | h | h <;> rw [h] <;>
      exact ⟨by simp [h], by assumption, by assumption⟩
  · intro st u j hj
    cases hfind : find_by_uuid st u with
    | none => simpa [admin_delete, hfind] using hj
    | some j0 =>
      simp only [admin_delete, hfind, log_event] at hj
      exact List.mem_of_mem_filter hj

/-- C3 witness: the trace of a concrete successful run contains the
terminal status Done, an admissible status. -/
theorem C3_status_transitions_witness : statusOK "Done" :=
  (C3_status_transitions.1 noKeyTranslator {} "u" (some "hi") none none
    emptyStore).2.1 "Done" (by decide)

/-! Claim C4: administrative delete -/

/-- C4 (amended): the administrative delete removes the Job row, so a
subsequent lookup by the external id returns NotFound, and first appends
a delete audit event; but the audit rows are NOT cascade-deleted: every
audit row of the job survives with its job reference cleared, and the
audit table grows by the one delete event.  The uniqueness hypothesis
models the unique index on the external id column. -/
theorem C4_admin_delete :
    ∀ (st : Store) (u : String) (j : Job),
      find_by_uuid st u = some j →
      (∀ k ∈ st.jobs, k.job_uuid = u → k.id = j.id) →
      find_by_uuid (admin_delete st u).1 u = none ∧
      (∀ e ∈ st.audit, e.job_id = some j.id →
        ({ e with job_id := none } : AuditLog) ∈ (admin_delete st u).1.audit) ∧
      (⟨st.nextAuditId, none, "delete", "Job deleted by admin"⟩ : AuditLog) ∈
        (admin_delete st u).1.audit ∧
      (admin_delete st u).1.audit.length = st.audit.length + 1 := by
  intro st u j hfind huniq
  refine ⟨?_, ?_, ?_, ?_⟩
  · simp only [admin_delete, hfind]
    apply find_by_uuid_eq_none
    intro x hx
    have hx2 : x ∈ List.filter (fun k => ¬ k.id = j.id) st.jobs := hx
    have hx' := List.mem_filter.mp hx2
    have hid : ¬ x.id = j.id := by simpa using hx'.2
    intro hxu
    exact hid (huniq x hx'.1 hxu)
  · intro e he hid
    simp only [admin_delete, hfind, log_event]
    exact List.mem_map.mpr ⟨e, List.mem_append_left _ he, by simp [hid]⟩
  · simp only [admin_delete, hfind, log_event]
    exact List.mem_map.mpr
      ⟨⟨st.nextAuditId, some j.id, "delete", "Job deleted by admin"⟩,
       List.mem_append_right _ (by simp), by simp⟩
  · simp [admin_delete, hfind, log_event]

/-- C4 witness: in the three-event scenario the lookup after deletion
returns NotFound. -/
theorem C4_admin_delete_witness :
    find_by_uuid (admin_delete c4Store "u1").1 "u1" = none :=
  (C4_admin_delete c4Store "u1" c4Job (by decide) (by decide)).1

/-- C4 counterexample: deleting the job with three audit events leaves
all three audit rows in the table, together with the fresh delete event,
all with their job reference cleared; the rows are not removed as the
claim states. -/
theorem C4_counterexample :
    find_by_uuid (admin_delete c4Store "u1").1 "u1" = none ∧
    (admin_delete c4Store "u1").1.audit =
      [{ id := 1, job_id := none, event_type := "upload",
         description := "Job created" },
       { id := 2, job_id := none, event_type := "status_change",
         description := "Status -> Translating" },
       { id := 3, job_id := none, event_type := "status_change",
         description := "Status -> Done" },
       { id := 4, job_id := none, event_type := "delete",
         description := "Job deleted by admin" }] ∧
    (admin_delete c4Store "u1").1.audit.length = 4 := by
  exact ⟨by decide, by decide, by decide⟩

/-! Claim C5: intake validation -/

/-- C5 (amended): a request with neither non-empty pasted text nor any
file with an allowed extension is rejected before any Job is created,
leaving the store untouched; in particular a lone file with extension exe
is rejected at intake with no Job created.  Pasted text and files are
not mutually exclusive: when both are present each produces its own
job. -/
theorem C5_intake_rejection :
    ∀ (translate : Option String → Except String String)
      (docx pdf : List Nat → Except String String) (m : FormMeta)
      (pasted : Option String) (files : List FileUpload) (st : Store),
      pyStrip ((pasted.getD "").data) = [] →
      (∀ f ∈ files, f.filename = "" ∨ allowed_file f.filename = false) →
      upload_translate_post translate docx pdf m pasted files st =
        (st, UploadOutcome.rejected) := by
  intro translate docx pdf m pasted files st hp hf
  have hskip := processFiles_skip translate docx pdf m files st hf
  simp [upload_translate_post, hp, hskip]

/-- C5 witness: a request with no pasted text and a single exe file is
rejected with no job created. -/
theorem C5_intake_rejection_witness :
    upload_translate_post noKeyTranslator (fun _ => Except.error "docx fail")
      (fun _ => Except.error "pdf fail") {} none
      [{ filename := "virus.exe", bytes := [1, 2, 3] }] emptyStore =
      (emptyStore, UploadOutcome.rejected) :=
  C5_intake_rejection noKeyTranslator (fun _ => Except.error "docx fail")
    (fun _ => Except.error "pdf fail") {} none
    [{ filename := "virus.exe", bytes := [1, 2, 3] }] emptyStore
    (by decide) (by decide)

/-- C5 counterexample: a request with BOTH non-empty pasted text and an
allowed file is not rejected: it creates two jobs, one per source,
refuting the exactly-one rule. -/
theorem C5_counterexample :
    pagesCount (upload_translate_post noKeyTranslator (fun _ => Except.error "docx fail")
      (fun _ => Except.error "pdf fail") {} (some "hi")
      [{ filename := "a.txt", bytes := [104] }] emptyStore).2 = some 2 ∧
    ((upload_translate_post noKeyTranslator (fun _ => Except.error "docx fail")
      (fun _ => Except.error "pdf fail") {} (some "hi")
      [{ filename := "a.txt", bytes := [104] }] emptyStore).1).jobs.length = 2 := by
  exact ⟨by decide, by decide⟩

/-! Claim C6: missing translator credentials -/

/-- C6 (amended): with no API key configured the pipeline always reaches
Done, never Error, and translated_text is the glossary application
applied to the placeholder marker followed by the complete original
text; when the glossary parses to no rules, translated_text is exactly
the marker plus the original, so it contains both.  A glossary rule can
rewrite the embedded original, so containment of the original text holds
only up to glossary substitution. -/
theorem C6_no_key_placeholder :
    ∀ (m : FormMeta) (u : String) (text : String) (st : Store),
      (create_and_run_job noKeyTranslator m u (some text) none none st).job.status =
        "Done" ∧
      (create_and_run_job noKeyTranslator m u (some text) none none st).exn = none ∧
      (create_and_run_job noKeyTranslator m u (some text) none none st).job.translated_text =
        some (apply_glossary ("[NO DEEPL_API_KEY SET]\n\nOriginal:\n" ++ text)
          m.glossary_raw) ∧
      (parse_glossary m.glossary_raw = [] →
        (create_and_run_job noKeyTranslator m u (some text) none none
          st).job.translated_text =
          some ("[NO DEEPL_API_KEY SET]\n\nOriginal:\n" ++ text) ∧
        strContains ("[NO DEEPL_API_KEY SET]\n\nOriginal:\n" ++ text)
          "[NO DEEPL_API_KEY SET]" ∧
        strContains ("[NO DEEPL_API_KEY SET]\n\nOriginal:\n" ++ text) text) := by
  intro m u text st
  have happ : (create_and_run_job noKeyTranslator m u (some text) none none
      st).job.translated_text =
      some (apply_glossary ("[NO DEEPL_API_KEY SET]\n\nOriginal:\n" ++ text)
        m.glossary_raw) := rfl
  refine ⟨rfl, rfl, happ, ?_⟩
  intro hparse
  have hfix : apply_glossary ("[NO DEEPL_API_KEY SET]\n\nOriginal:\n" ++ text)
      m.glossary_raw = "[NO DEEPL_API_KEY SET]\n\nOriginal:\n" ++ text := by
    unfold apply_glossary
    rw [hparse]
    rfl
  refine ⟨by rw [happ, hfix], ?_, ?_⟩
  · show containsSeg ("[NO DEEPL_API_KEY SET]" : String).data
      (("[NO DEEPL_API_KEY SET]\n\nOriginal:\n" ++ text)).data = true
    rw [show ("[NO DEEPL_API_KEY SET]\n\nOriginal:\n" : String) =
      "[NO DEEPL_API_KEY SET]" ++ "\n\nOriginal:\n" from by decide]
    rw [strAppendAssoc, string_data_append]
    exact containsSeg_self_append _ _
  · show containsSeg text.data
      (("[NO DEEPL_API_KEY SET]\n\nOriginal:\n" ++ text)).data = true
    rw [string_data_append]
    exact containsSeg_append_self _ _

/-- C6 witness: with an empty glossary and original text Vertrag, the job
text is exactly the marker plus the original, and contains the
original. -/
theorem C6_no_key_placeholder_witness :
    (create_and_run_job noKeyTranslator {} "u" (some "Vertrag") none none
      emptyStore).job.translated_text =
      some ("[NO DEEPL_API_KEY SET]\n\nOriginal:\n" ++ "Vertrag") ∧
    strContains ("[NO DEEPL_API_KEY SET]\n\nOriginal:\n" ++ "Vertrag") "Vertrag" :=
  ⟨((C6_no_key_placeholder {} "u" "Vertrag" emptyStore).2.2.2 (by decide)).1,
   ((C6_no_key_placeholder {} "u" "Vertrag" emptyStore).2.2.2 (by decide)).2.2⟩

/-- C6 counterexample: with the glossary rule hello to bye and original
text hello, the job reaches Done but its translated_text no longer
contains the original text, because the glossary rewrote the embedded
original. -/
theorem C6_counterexample :
    (create_and_run_job noKeyTranslator { glossary_raw := some "hello => bye" } "u"
      (some "hello") none none emptyStore).job.status = "Done" ∧
    (create_and_run_job noKeyTranslator { glossary_raw := some "hello => bye" } "u"
      (some "hello") none none emptyStore).job.translated_text =
      some "[NO DEEPL_API_KEY SET]\n\nOriginal:\nbye" ∧
    containsSeg ("hello" : String).data
      ("[NO DEEPL_API_KEY SET]\n\nOriginal:\nbye" : String).data = false := by
  exact ⟨by decide, by decide, by decide⟩

/-! Claim C7: pricing -/

/-- C7: for every original text and domain, the price estimate equals
word count times 0.05 times the domain multiplier, rounded to two decimal
places, with multiplier 1.5 for legal, 1.6 for medical, 1.3 for
technical and 1.0 otherwise; the word count is the number of
whitespace-delimited tokens of the original text, zero for empty or
whitespace-only text; and domain legal with word count 100 yields
7.50. -/
theorem C7_pricing :
    (∀ (text : String) (domain : Option String),
      compute_price (count_words (some text)) domain =
        round2 ((count_words (some text) : ℚ) * (5 / 100) * domainMultiplier domain)) ∧
    domainMultiplier (some "legal") = 3 / 2 ∧
    domainMultiplier (some "medical") = 8 / 5 ∧
    domainMultiplier (some "technical") = 13 / 10 ∧
    (∀ d : Option String, d ≠ some "legal" → d ≠ some "medical" →
      d ≠ some "technical" → domainMultiplier d = 1) ∧
    (∀ text : String, count_words (some text) = (pySplitWs text.data).length) ∧
    (∀ text : String, (∀ c ∈ text.data, pyIsSpace c = true) →
      count_words (some text) = 0) ∧
    compute_price 100 (some "legal") = 15 / 2 := by
  refine ⟨fun _ _ => rfl, by simp [domainMultiplier], by simp [domainMultiplier],
    by simp [domainMultiplier], ?_, fun _ => rfl, ?_, ?_⟩
  · intro d h1 h2 h3
    match d with
    | none => rfl
    | some s =>
      have n1 : ¬ s = "legal" := fun hs => h1 (by rw [hs])
      have n2 : ¬ s = "medical" := fun hs => h2 (by rw [hs])
      have n3 : ¬ s = "technical" := fun hs => h3 (by rw [hs])
      simp [domainMultiplier, n1, n2, n3]
  · intro text h
    show (pySplitWs ((Option.getD (some text) "").data)).length = 0
    rw [show Option.getD (some text) "" = text from rfl, pySplitWs,
      pySplitWsAux_nil_of_space text.data h]
    rfl
  · norm_num [compute_price, round2, domainMultiplier]

/-- C7 witness: the otherwise-multiplier and the whitespace-only word
count, applied at concrete inputs. -/
theorem C7_pricing_witness :
    domainMultiplier (some "marketing") = 1 ∧ count_words (some " \t\n ") = 0 :=
  ⟨C7_pricing.2.2.2.2.1 (some "marketing") (by decide) (by decide) (by decide),
   C7_pricing.2.2.2.2.2.2.1 " \t\n " (by decide)⟩

/-! Claim C8: glossary idempotence -/

/-- C8 (amended): glossary application is idempotent on every text whose
once-substituted form contains no occurrence of any glossary source term;
the precondition of the original claim, that no target term equals a
source term, is not sufficient because replacement is substring-based. -/
theorem C8_idempotent :
    ∀ (text : String) (g : Option String),
      (∀ p ∈ parse_glossary g, containsSeg p.1 (apply_glossary text g).data = false) →
      apply_glossary (apply_glossary text g) g = apply_glossary text g := by
  intro text g h
  exact apply_glossary_fixed g h

/-- C8 witness: the glossary with the single rule a to b on the text ab,
whose once-substituted form bb contains no source term. -/
theorem C8_idempotent_witness :
    apply_glossary (apply_glossary "ab" (some "a => b")) (some "a => b") =
      apply_glossary "ab" (some "a => b") :=
  C8_idempotent "ab" (some "a => b") (by decide)

/-- C8 counterexample: the glossary with the single rule aa to a
satisfies the claimed precondition (no target term is a source term), yet
applying it once to aaa gives aa and applying it twice gives a, so double
application differs from single application. -/
theorem C8_counterexample :
    noTargetIsSource (some "aa => a") = true ∧
    apply_glossary "aaa" (some "aa => a") = "aa" ∧
    apply_glossary (apply_glossary "aaa" (some "aa => a")) (some "aa => a") = "a" ∧
    (apply_glossary (apply_glossary "aaa" (some "aa => a")) (some "aa => a") ==
      apply_glossary "aaa" (some "aa => a")) = false := by
  exact ⟨by decide, by decide, by decide, by decide⟩

/-! Claim C9: text extraction -/

/-- C9 (amended): extraction of a file whose lowered extension is txt
returns exactly the permissive UTF-8 decoding of its bytes with invalid
byte sequences DROPPED (Python ignore handler), never a failure; and
extraction of a file whose extension is outside the allowed set fails
with the unsupported-type error without depending on the file content or
on the format-specific extraction backends. -/
theorem C9_plain_text_extraction :
    (∀ (docx pdf : List Nat → Except String String) (filename : String) (bytes : List Nat),
      pyLower (afterLastDot filename.data) = "txt".data →
      read_file_content docx pdf filename bytes =
        Except.ok (String.mk (utf8DecodeIgnore bytes))) ∧
    (∀ (docx pdf docx2 pdf2 : List Nat → Except String String) (filename : String)
        (bytes bytes2 : List Nat),
      ALLOWED_EXTENSIONS.contains (pyLower (afterLastDot filename.data)) = false →
      read_file_content docx pdf filename bytes =
        Except.error ("Unsupported file type: ." ++
          String.mk (pyLower (afterLastDot filename.data))) ∧
      read_file_content docx pdf filename bytes =
        read_file_content docx2 pdf2 filename bytes2) := by
  constructor
  · intro docx pdf filename bytes h
    have hc : ALLOWED_EXTENSIONS.contains ("txt".data) = true := by decide
    simp only [read_file_content, h, hc]
    simp
  · intro docx pdf docx2 pdf2 filename bytes bytes2 h
    simp only [read_file_content, h]
    simp

/-- C9 witness: a txt file decodes to its content, an exe file is
rejected with the unsupported-type message. -/
theorem C9_witness :
    read_file_content (fun _ => Except.error "docx fail") (fun _ => Except.error "pdf fail")
      "notes.txt" [104, 105] = Except.ok "hi" ∧
    read_file_content (fun _ => Except.error "docx fail") (fun _ => Except.error "pdf fail")
      "virus.exe" [1, 2] = Except.error "Unsupported file type: .exe" :=
  ⟨(C9_plain_text_extraction.1 _ _ "notes.txt" [104, 105] (by decide)).trans (by decide),
   ((C9_plain_text_extraction.2 (fun _ => Except.error "docx fail")
      (fun _ => Except.error "pdf fail") (fun _ => Except.error "docx fail")
      (fun _ => Except.error "pdf fail") "virus.exe" [1, 2] [1, 2] (by decide)).1).trans
     (by decide)⟩

/-- C9 counterexample: on the invalid byte 0xFF in a txt file the code
returns the empty string (the byte is dropped), while the replacement
decoding the claim describes yields the replacement character U+FFFD, a
different string. -/
theorem C9_counterexample :
    read_file_content (fun _ => Except.error "docx fail") (fun _ => Except.error "pdf fail")
      "a.txt" [255] = Except.ok "" ∧
    String.mk (utf8DecodeReplace [255]) = "�" ∧
    (("" : String) == "�") = false := by
  exact ⟨by decide, by decide, by decide⟩

/-! Claim C10: download -/

/-- C10: for every existing job, regardless of status, download succeeds
and serves the UTF-8 bytes of translated_text (empty when unset) under
the original filename with a txt suffix, or translation.txt when no
non-empty original filename was recorded. -/
theorem C10_download :
    ∀ (st : Store) (u : String) (j : Job), find_by_uuid st u = some j →
      download_route st u =
        some (utf8Encode ((j.translated_text.getD "").data),
          orFalsy j.original_filename "translation" ++ ".txt") ∧
      (j.translated_text = none → utf8Encode ((j.translated_text.getD "").data) = []) ∧
      (∀ t, j.translated_text = some t →
        utf8Encode ((j.translated_text.getD "").data) = utf8Encode t.data) ∧
      (∀ f, j.original_filename = some f → ¬ f = "" →
        orFalsy j.original_filename "translation" ++ ".txt" = f ++ ".txt") ∧
      (j.original_filename = none →
        orFalsy j.original_filename "translation" ++ ".txt" = "translation.txt") ∧
      (j.original_filename = some "" →
        orFalsy j.original_filename "translation" ++ ".txt" = "translation.txt") := by
  intro st u j h
  refine ⟨by simp [download_route, h], ?_, ?_, ?_, ?_, ?_⟩
  · intro ht; rw [ht]; rfl
  · intro t ht; rw [ht]; rfl
  · intro f hf hne; rw [hf]; simp [orFalsy, hne]
  · intro hf; rw [hf]; rfl
  · intro hf; rw [hf]; rfl

/-- C10 witness: a job still in Translating with no translated text and no
filename downloads as an empty byte stream named translation.txt. -/
theorem C10_download_witness :
    download_route { jobs := [c10Job], audit := [], nextJobId := 2, nextAuditId := 1 } "w" =
      some ([], "translation.txt") :=
  ((C10_download { jobs := [c10Job], audit := [], nextJobId := 2, nextAuditId := 1 }
    "w" c10Job (by decide)).1).trans (by decide)

end KLApp
